import Mathlib

/-!
Shallow embedding of the kilo-rust editor core (src/main.rs, src/editor.rs).

The repository's `row.rs`, `position.rs`, `key.rs` and `window.rs` modules are
not among the provided sources; the definitions below that correspond to them
are modelled from the specification (each such definition's doc comment starts
with "Modelled from the spec:").  Everything else is translated directly from
`src/editor.rs` and `src/main.rs`.

Rust `usize` values are modelled as `Nat`.  Indexing a `Vec` out of range
panics in Rust; the corresponding Lean functions return `Option` and yield
`none` exactly where the Rust code would panic.  Terminal output (escape
sequences, the append buffer) is output-only state and is elided; file writes
are modelled by returning the byte list that would be written.
-/

deriving instance DecidableEq for Except

/-- Tab stop width used when expanding tabs in a row's render representation. -/
def TAB_STOP : Nat := 8

/-- Modelled from the spec: `row.rs` is not among the provided sources.
§4.1 `update()` derives `render` from `chars` by expanding each tab character
to spaces up to the next fixed tab stop; every other byte is copied unchanged. -/
def expandTabs (chars : List UInt8) : List UInt8 :=
  chars.foldl
    (fun acc c =>
      if c = 9 then acc ++ List.replicate (TAB_STOP - acc.length % TAB_STOP) 32
      else acc ++ [c])
    []

/-- A single line of text: raw characters plus the rendered (tab-expanded) form.
Mirrors `row::EditorRow` (fields used by `editor.rs`). -/
structure EditorRow where
  chars : List UInt8
  render : List UInt8
deriving Repr, DecidableEq

/-- Modelled from the spec: §4.1 `update()` recomputes `render` from `chars`. -/
def EditorRow.update (r : EditorRow) : EditorRow :=
  { r with render := expandTabs r.chars }

/-- Modelled from the spec: §4.1 `render_position(char_x)` maps a character-space
column to its render-space column by replaying the expansion rule up to `char_x`. -/
def EditorRow.render_position (r : EditorRow) (char_x : Nat) : Nat :=
  (expandTabs (r.chars.take char_x)).length

/-- Modelled from the spec: §4.1 `insert_char(byte, at)` inserts one byte into
`chars` at the position clamped to `[0, len]`.  §4.1 permits the rebuild of
`render` to be performed by this mutator itself; `editor.rs` does not call
`update` after it, so the rebuild is modelled here. -/
def EditorRow.insert_char (r : EditorRow) (c : UInt8) (i : Nat) : EditorRow :=
  let j := min i r.chars.length
  EditorRow.update { r with chars := r.chars.take j ++ c :: r.chars.drop j }

/-- Modelled from the spec: §4.1 `delete_char(at)` removes one byte at `at`
(callers guarantee `at < len`); as with `insert_char`, the mutator rebuilds
`render` itself. -/
def EditorRow.delete_char (r : EditorRow) (i : Nat) : EditorRow :=
  EditorRow.update { r with chars := r.chars.take i ++ r.chars.drop (i + 1) }

/-- Modelled from the spec: §4.1 `split(at)` keeps the left part in place
(its `render` is rebuilt afterwards by the caller) and returns a new row
holding the right part, whose `render` is likewise rebuilt by the caller. -/
def EditorRow.split (r : EditorRow) (i : Nat) : EditorRow × EditorRow :=
  ({ chars := r.chars.take i, render := r.render },
   { chars := r.chars.drop i, render := [] })

/-- Modelled from the spec: §4.1 `append(other)` concatenates another row's
`chars` onto this row's end; the caller calls `update()` afterwards. -/
def EditorRow.append_row (r other : EditorRow) : EditorRow :=
  { r with chars := r.chars ++ other.chars }

/-- Modelled from the spec: `position.rs` is not among the provided sources.
§3 Position: two unsigned integer fields `(x, y)` with arithmetic.  Subtraction
on unsigned coordinates is truncated at zero, matching §4.2's requirement that
movement in a zero-row buffer is a no-op without underflow. -/
structure Position where
  x : Nat
  y : Nat
deriving Repr, DecidableEq

/-- Modelled from the spec: componentwise truncated subtraction (`-=`). -/
def Position.sub (p q : Position) : Position :=
  ⟨p.x - q.x, p.y - q.y⟩

/-- Modelled from the spec: `key.rs` is not among the provided sources.
§6 lists the decoded command values; the constructors are those matched by
`editor.rs` and `main.rs`. -/
inductive EditorKey where
  | Enter
  | Char (c : UInt8)
  | BackSpace
  | PageUp
  | PageDown
  | End
  | Ctrl (c : UInt8)
  | Null
  | ArrowLeft
  | ArrowRight
  | ArrowUp
  | ArrowDown
deriving Repr, DecidableEq

/-- The editor state (`Editor` in `editor.rs`).  The `stdout` handle and the
`append_buffer` are output-only and elided. -/
structure Editor where
  cursor_position : Position
  render_cursor_position : Position
  rows : List EditorRow
  offset : Position
  window_size : Position
  status_message : String
  current_file_name : String
  is_dirty : Bool
  e_key_history : List EditorKey
deriving Repr, DecidableEq

/-- Length of row `i`'s `chars` (`rows[i].chars.len()`); callers guard the index. -/
def rowLen (e : Editor) (i : Nat) : Nat :=
  (e.rows.getD i ⟨[], []⟩).chars.length

/-- `Editor::new`, with the probed terminal size passed in (the terminal-size
collaborator is out of core scope); the bottom two rows are reserved. -/
def Editor.new (terminalSize : Position) : Editor :=
  { cursor_position := ⟨0, 0⟩
    render_cursor_position := ⟨0, 0⟩
    rows := []
    offset := ⟨0, 0⟩
    window_size := ⟨terminalSize.x, terminalSize.y - 2⟩
    status_message := ""
    current_file_name := "[NO NAME]"
    is_dirty := false
    e_key_history := [] }

/-- `Editor::insert_row`: `Vec::insert(at, row)` (panics when `at > len`)
followed by `rows[at].update()` and setting the dirty flag. -/
def Editor.insert_row (e : Editor) (i : Nat) (row : EditorRow) : Option Editor :=
  if i ≤ e.rows.length then
    some { e with
      rows := e.rows.take i ++ row.update :: e.rows.drop i
      is_dirty := true }
  else none

/-- `Editor::open_empty`: insert one empty row at index 0. -/
def Editor.open_empty (e : Editor) : Option Editor :=
  e.insert_row 0 ⟨[], []⟩

/-- `Editor::open_file`, with the file's lines passed in (read path: one row
per input line, in order; the dirty flag is cleared at the end). -/
def Editor.open_file (e : Editor) (filename : String) (contents : List (List UInt8)) : Editor :=
  let e1 := { e with current_file_name := filename }
  let e2 := contents.foldl
    (fun acc line =>
      { acc with rows := acc.rows ++ [EditorRow.update ⟨line, []⟩], is_dirty := true })
    e1
  { e2 with is_dirty := false }

/-- The write loop of `Editor::save`: for each row, `r.chars.push(b'\n')`
(mutating the stored row) then `file.write_all(r.chars)`; clears the dirty
flag.  Returns the editor and the byte content written to the file. -/
def Editor.write_rows (e : Editor) : Editor × List UInt8 :=
  let rows2 := e.rows.map (fun r => { r with chars := r.chars ++ [10] })
  ({ e with rows := rows2, is_dirty := false },
   rows2.foldl (fun acc r => acc ++ r.chars) [])

/-- Helper for `String::from_utf8` on the prompt's printable-ASCII bytes. -/
def bytesToString (bs : List UInt8) : String :=
  String.mk (bs.map fun b => Char.ofNat b.toNat)

/-- `Editor::save_prompt`'s collection loop over the raw input bytes: Enter
(13) accepts, Escape (27) cancels, 8 removes the last collected byte, printable
ASCII (32..=126) is appended, anything else is ignored.  `none` means the
modelled input was exhausted while the blocking loop was still running;
`some none` is cancellation; `some (some buf)` is acceptance.  The status-line
echo and redraw inside the loop are output-only and elided. -/
def save_prompt_go : List UInt8 → List UInt8 → Option (Option (List UInt8))
  | [], _ => none
  | b :: rest, buf =>
    if b = 13 then some (some buf)
    else if b = 8 then save_prompt_go rest buf.dropLast
    else if b = 27 then some none
    else if 32 ≤ b ∧ b ≤ 126 then save_prompt_go rest (buf ++ [b])
    else save_prompt_go rest buf

/-- `Editor::save_prompt`, as a function of the raw bytes typed at the prompt. -/
def save_prompt (input : List UInt8) : Option (Option (List UInt8)) :=
  save_prompt_go input []

/-- `Editor::save`: when the file name is the `"[NO NAME]"` sentinel, solicit a
name via the prompt (cancellation yields the "user canceled" error before any
write); otherwise write every row via `write_rows`.  `File::create` overwrites
the target; its I/O failure modes are environment-dependent and the success
path is modelled.  The result carries the post-save editor and the file bytes. -/
def Editor.save (e : Editor) (promptInput : List UInt8) :
    Option (Except String (Editor × List UInt8)) :=
  if e.current_file_name = "[NO NAME]" then
    match save_prompt promptInput with
    | none => none
    | some none => some (Except.error "user canceled")
    | some (some nameBytes) =>
      some (Except.ok (Editor.write_rows { e with current_file_name := bytesToString nameBytes }))
  else
    some (Except.ok e.write_rows)

/-- `Editor::insert_char` (the editor-level one): `rows[cursor.y]` (panics when
`cursor.y` is out of range), insert at `cursor.x`, advance both cursors' x,
mark dirty. -/
def Editor.insert_char (e : Editor) (c : UInt8) : Option Editor :=
  if e.cursor_position.y < e.rows.length then
    let row := e.rows.getD e.cursor_position.y ⟨[], []⟩
    some { e with
      rows := e.rows.set e.cursor_position.y (row.insert_char c e.cursor_position.x)
      cursor_position := ⟨e.cursor_position.x + 1, e.cursor_position.y⟩
      render_cursor_position := ⟨e.render_cursor_position.x + 1, e.render_cursor_position.y⟩
      is_dirty := true }
  else none

/-- `Editor::insert_newline`: on an empty row or at end-of-line insert a fresh
empty row below; otherwise split the current row at the cursor, rebuild the
left part's render, and insert the right part below (an empty right part is
discarded).  Finally the cursor moves to column 0 of the line below.
`rows[cursor.y]` panics when `cursor.y` is out of range. -/
def Editor.insert_newline (e : Editor) : Option Editor :=
  let x := e.cursor_position.x
  let y := e.cursor_position.y
  if y < e.rows.length then
    let row := e.rows.getD y ⟨[], []⟩
    let afterInsert : Option Editor :=
      if row.chars.length = 0 then
        e.insert_row (y + 1) ⟨[], []⟩
      else if x = row.chars.length then
        e.insert_row (y + 1) ⟨[], []⟩
      else
        let pair := row.split x
        let e1 : Editor := { e with rows := e.rows.set y pair.1 }
        if pair.2.chars.length ≠ 0 then
          Editor.insert_row { e1 with rows := e1.rows.set y pair.1.update } (y + 1) pair.2
        else some e1
    afterInsert.map fun e2 => { e2 with cursor_position := ⟨0, y + 1⟩ }
  else none

/-- `Editor::backspace`: at column ≥ 1 delete the byte left of the cursor and
recompute the render cursor; at column 0 on row 0 return without marking dirty;
at column 0 elsewhere remove the current row (`Vec::remove`), append it onto
the previous row, rebuild that row's render, and put the cursor at the former
boundary.  Row indexing panics out of range. -/
def Editor.backspace (e : Editor) : Option Editor :=
  let x := e.cursor_position.x
  let y := e.cursor_position.y
  if 1 ≤ x then
    if y < e.rows.length then
      let row := (e.rows.getD y ⟨[], []⟩).delete_char (x - 1)
      some { e with
        rows := e.rows.set y row
        cursor_position := ⟨x - 1, y⟩
        render_cursor_position := ⟨row.render_position (x - 1), e.render_cursor_position.y⟩
        is_dirty := true }
    else none
  else if y = 0 then
    some e
  else
    if y < e.rows.length then
      let mv := e.rows.getD y ⟨[], []⟩
      let rows1 := e.rows.take y ++ e.rows.drop (y + 1)
      if y - 1 < rows1.length then
        let prev := rows1.getD (y - 1) ⟨[], []⟩
        some { e with
          rows := rows1.set (y - 1) (EditorRow.update (prev.append_row mv))
          cursor_position := ⟨prev.chars.length, y - 1⟩
          is_dirty := true }
      else none
    else none

/-- The `limit_x` / `limit_y` computation at the head of `Editor::move_cursor`:
with no rows both limits are 0; otherwise `limit_y = rows.len() - 1` and
`limit_x` is 0 on the sentinel row and the current row's length below it
(`rows[cursor.y]` panics when `cursor.y > rows.len()`). -/
def Editor.move_limits (e : Editor) : Option (Nat × Nat) :=
  if e.rows.length = 0 then some (0, 0)
  else if e.cursor_position.y = e.rows.length then some (0, e.rows.length - 1)
  else if e.cursor_position.y < e.rows.length then
    some (rowLen e e.cursor_position.y, e.rows.length - 1)
  else none

/-- `Editor::move_cursor`: arrow-key movement (other keys fall through to the
empty match arm).  The limits are computed before the match, so an out-of-range
`cursor.y` panics for every key. -/
def Editor.move_cursor (e : Editor) (k : EditorKey) : Option Editor :=
  match e.move_limits with
  | none => none
  | some (limit_x, limit_y) =>
    match k with
    | .ArrowLeft =>
      if e.cursor_position.x = 0 then
        if 0 < e.cursor_position.y then
          if e.cursor_position.y - 1 < e.rows.length then
            some { e with cursor_position :=
              ⟨rowLen e (e.cursor_position.y - 1), e.cursor_position.y - 1⟩ }
          else none
        else some e
      else
        some { e with cursor_position := Position.sub e.cursor_position ⟨1, 0⟩ }
    | .ArrowRight =>
      if limit_y ≤ e.cursor_position.y ∧ limit_x ≤ e.cursor_position.x then
        some e
      else if e.cursor_position.x < limit_x then
        some { e with cursor_position := ⟨e.cursor_position.x + 1, e.cursor_position.y⟩ }
      else
        some { e with cursor_position := ⟨0, e.cursor_position.y + 1⟩ }
    | .ArrowUp =>
      if e.rows.length = e.cursor_position.y then
        some { e with cursor_position := Position.sub e.cursor_position ⟨0, 1⟩ }
      else
        if e.cursor_position.y - 1 < e.rows.length then
          if rowLen e (e.cursor_position.y - 1) < e.cursor_position.x then
            some { e with cursor_position :=
              Position.sub ⟨rowLen e (e.cursor_position.y - 1), e.cursor_position.y⟩ ⟨0, 1⟩ }
          else
            some { e with cursor_position := Position.sub e.cursor_position ⟨0, 1⟩ }
        else none
    | .ArrowDown =>
      if e.cursor_position.y < limit_y then
        if e.cursor_position.y + 1 < e.rows.length then
          if rowLen e (e.cursor_position.y + 1) < e.cursor_position.x then
            some { e with cursor_position :=
              ⟨rowLen e (e.cursor_position.y + 1), e.cursor_position.y + 1⟩ }
          else
            some { e with cursor_position := ⟨e.cursor_position.x, e.cursor_position.y + 1⟩ }
        else none
      else some e
    | _ => some e

/-- `Editor::scroll`: recompute the render cursor from the current row, then
clamp the vertical offset against the cursor row and the horizontal offset
against the render cursor. -/
def Editor.scroll (e : Editor) : Editor :=
  let rcx :=
    if h : e.cursor_position.y < e.rows.length then
      (e.rows.get ⟨e.cursor_position.y, h⟩).render_position e.cursor_position.x
    else 0
  let oy1 := if e.cursor_position.y < e.offset.y then e.cursor_position.y else e.offset.y
  let oy2 :=
    if oy1 + e.window_size.y ≤ e.cursor_position.y then
      e.cursor_position.y - e.window_size.y + 1
    else oy1
  let ox1 := if rcx < e.offset.x then rcx else e.offset.x
  let ox2 :=
    if ox1 + e.window_size.x ≤ rcx then rcx - e.window_size.x + 1
    else ox1
  { e with
    render_cursor_position := ⟨rcx, e.render_cursor_position.y⟩
    offset := ⟨ox2, oy2⟩ }

/-- `Editor::refresh_screen`'s effect on the editor state: `scroll` runs first;
the drawing steps only append escape sequences and row bytes to the output
buffer, which is flushed and cleared, so they leave the state above unchanged. -/
def Editor.refresh_screen (e : Editor) : Editor :=
  e.scroll

/-- The status message set on the first quit attempt with unsaved changes. -/
def quitWarning : String :=
  "WARNING!! File has unsaved changes. Press Ctrl-Q again to quit."

/-- Result of one `Editor::process_keypress` call: the new state, the returned
`allow_exit` flag, and the file write performed by a successful save (path and
bytes), if any. -/
structure KeypressResult where
  editor : Editor
  allow_exit : Bool
  written : Option (String × List UInt8)
deriving Repr, DecidableEq

/-- The match arms of `Editor::process_keypress` (everything before the history
push).  Returns the mutated editor, `allow_exit`, and any file write. -/
def Editor.keypress_action (e : Editor) (key : EditorKey) (promptInput : List UInt8) :
    Option (Editor × Bool × Option (String × List UInt8)) :=
  match key with
  | .Enter => (e.insert_newline).map fun e1 => (e1, false, none)
  | .Char c => (e.insert_char c).map fun e1 => (e1, false, none)
  | .BackSpace => (e.backspace).map fun e1 => (e1, false, none)
  | .PageUp =>
    some ({ e with cursor_position := ⟨e.cursor_position.x, e.offset.y⟩ }, false, none)
  | .PageDown =>
    let y1 := e.offset.y + e.window_size.y - 1
    let y2 := if e.rows.length < y1 then e.rows.length else y1
    some ({ e with cursor_position := ⟨e.cursor_position.x, y2⟩ }, false, none)
  | .End =>
    if e.cursor_position.y = e.rows.length then
      if e.cursor_position.y < e.rows.length then
        some ({ e with cursor_position :=
          ⟨rowLen e e.cursor_position.y, e.cursor_position.y⟩ }, false, none)
      else none
    else some (e, false, none)
  | .Ctrl c =>
    if c = 81 then
      if e.is_dirty then
        -- match on history.last(): the Some(Ctrl(b'Q')) arm allows exit,
        -- every other arm sets the warning
        if e.e_key_history.getLast? = some (EditorKey.Ctrl 81) then
          some (e, true, none)
        else some ({ e with status_message := quitWarning }, false, none)
      else some (e, true, none)
    else if c = 83 then
      match e.save promptInput with
      | none => none
      | some (Except.error msg) => some ({ e with status_message := msg }, false, none)
      | some (Except.ok (e1, content)) =>
        some ({ e1 with status_message := "Written to disk" }, false,
              some (e1.current_file_name, content))
    else some (e, false, none)
  | .Null => some (e, false, none)
  | _ => some (e, false, none)

/-- `Editor::process_keypress`: the `Null` command returns `false` before the
history push; every other command is dispatched and then recorded in
`e_key_history`. -/
def Editor.process_keypress (e : Editor) (key : EditorKey) (promptInput : List UInt8) :
    Option KeypressResult :=
  match key with
  | .Null => some ⟨e, false, none⟩
  | _ =>
    (e.keypress_action key promptInput).map fun r =>
      ⟨{ r.1 with e_key_history := r.1.e_key_history ++ [key] }, r.2.1, r.2.2⟩

/-- `main`'s startup (src/main.rs lines 16-25): construct the editor; when at
least two CLI arguments are present open `args[1]` (a read failure is fatal,
modelled as `none`); otherwise proceed with the freshly constructed editor. -/
def mainStartup (terminalSize : Position) (args : List String)
    (readFile : String → Option (List (List UInt8))) : Option Editor :=
  let e := Editor.new terminalSize
  if 2 ≤ args.length then
    (readFile (args.getD 1 "")).map fun contents => e.open_file (args.getD 1 "") contents
  else some e

/-- Outcome of one iteration of `main`'s input loop. -/
inductive MainStep where
  | exited
  | next (e : Editor)
deriving Repr, DecidableEq

/-- One iteration of `main`'s loop (src/main.rs lines 26-33): on `Ctrl(113)`
the process exits; otherwise the key is passed to `move_cursor` and the screen
is refreshed.  `none` models a panic inside the iteration. -/
def mainLoopStep (e : Editor) (k : EditorKey) : Option MainStep :=
  if k = EditorKey.Ctrl 113 then some MainStep.exited
  else (e.move_cursor k).map fun e1 => MainStep.next e1.refresh_screen

/-- The cursor invariant exactly as claim C3 states it (spec §3):
`y ≤ rows.len()`, and on a non-empty buffer with `y < rows.len()` the column
is at most the current row's length. -/
def CursorInv (e : Editor) : Prop :=
  e.cursor_position.y ≤ e.rows.length ∧
  (0 < e.rows.length → e.cursor_position.y < e.rows.length →
    e.cursor_position.x ≤ rowLen e e.cursor_position.y)

instance (e : Editor) : Decidable (CursorInv e) := by
  unfold CursorInv; infer_instance

/-- The cursor invariant strengthened with the sentinel clause of spec §8:
the column is 0 whenever the cursor sits on the virtual row past the last line. -/
def CursorInvStrong (e : Editor) : Prop :=
  CursorInv e ∧ (e.cursor_position.y = e.rows.length → e.cursor_position.x = 0)

instance (e : Editor) : Decidable (CursorInvStrong e) := by
  unfold CursorInvStrong; infer_instance

/-- A one-byte row holding `"a"`, with its render built. -/
def sampleRowA : EditorRow := EditorRow.update ⟨[97], []⟩

/-- A two-byte row holding `"ab"`, with its render built. -/
def sampleRowAB : EditorRow := EditorRow.update ⟨[97, 98], []⟩

/-- A baseline editor state: empty buffer, 80×22 content window, no file name. -/
def baseEditor : Editor :=
  { cursor_position := ⟨0, 0⟩
    render_cursor_position := ⟨0, 0⟩
    rows := []
    offset := ⟨0, 0⟩
    window_size := ⟨80, 22⟩
    status_message := ""
    current_file_name := "[NO NAME]"
    is_dirty := false
    e_key_history := [] }

/-- A dirty one-row buffer (`"a"`) with an associated file name. -/
def sampleNamed : Editor :=
  { baseEditor with current_file_name := "f", rows := [sampleRowA], is_dirty := true }

/-- The state after saving `sampleNamed` once: `save` pushed the newline byte
into the stored row's `chars` while leaving its `render` untouched. -/
def savedOnce : Editor :=
  { sampleNamed with rows := [⟨[97, 10], [97]⟩], is_dirty := false }

/-- The state after saving a second time: another newline byte accumulates. -/
def savedTwice : Editor :=
  { sampleNamed with rows := [⟨[97, 10, 10], [97]⟩], is_dirty := false }

/-- A clean one-row buffer (`"a"`), cursor at the origin. -/
def oneRowEditor : Editor :=
  { baseEditor with rows := [sampleRowA] }

/-- A one-row buffer with the cursor on the end-of-buffer sentinel row. -/
def sentinelEditor : Editor :=
  { baseEditor with rows := [sampleRowA], cursor_position := ⟨0, 1⟩ }

/-- A one-row buffer whose two-line window lets PageDown land on the sentinel. -/
def pageDownEditor : Editor :=
  { baseEditor with rows := [sampleRowA], window_size := ⟨80, 2⟩ }

/-- A one-row buffer (`"ab"`), cursor at the origin, for the End-key claim. -/
def abEditor : Editor :=
  { baseEditor with rows := [sampleRowAB] }

/-- A state satisfying C3's stated invariant but not the sentinel clause:
cursor on the sentinel row with a positive column. -/
def c3Editor : Editor :=
  { baseEditor with rows := [sampleRowA], cursor_position := ⟨2, 1⟩ }

/-- The state `move_cursor ArrowUp` produces from `c3Editor`. -/
def c3EditorAfter : Editor :=
  { c3Editor with cursor_position := ⟨2, 0⟩ }

/-- A dirty unnamed buffer used to witness the cancelled-save claim. -/
def dirtyUnnamed : Editor :=
  { baseEditor with rows := [sampleRowA], is_dirty := true }

/-- C1: claimed that after every mutator that changes a row's `chars` — in
particular `save` — the row's `render` equals a fresh recomputation of the
tab expansion of its `chars`.  The code violates this: `save` pushes the
newline byte into each stored row's `chars` and never rebuilds `render`, so
after saving the one-row buffer `"a"` the row holds `chars = "a\n"` while
`render` is still the expansion of the old `"a"`. -/
theorem save_leaves_render_stale :
    sampleNamed.save [] = some (Except.ok (savedOnce, [97, 10])) ∧
    (savedOnce.rows.getD 0 ⟨[], []⟩).chars = [97, 10] ∧
    (savedOnce.rows.getD 0 ⟨[], []⟩).render ≠
      expandTabs ((savedOnce.rows.getD 0 ⟨[], []⟩).chars) := by
  decide

/-- C2: claimed that every decoded editing command is applied to the buffer
before the next render (a character command inserts that character).  The main
loop (src/main.rs lines 26-33) only ever calls `move_cursor` and
`refresh_screen`; it never dispatches to `process_keypress`, so a `Char`
command mutates nothing: stepping the loop on `Char 98` from the one-row
buffer `"a"` leaves the rows exactly as they were (no `'b'` inserted). -/
theorem main_loop_ignores_editing_commands :
    mainLoopStep oneRowEditor (EditorKey.Char 98) =
      some (MainStep.next oneRowEditor.refresh_screen) ∧
    oneRowEditor.refresh_screen.rows = [sampleRowA] ∧
    mainLoopStep oneRowEditor EditorKey.BackSpace =
      some (MainStep.next oneRowEditor.refresh_screen) := by
  decide

/-- C4: claimed that every successful save writes each row's characters
followed by exactly one newline byte — including a second save after a first
one.  Because `save` pushes the newline into the stored `chars`, the first
save of the buffer `"a"` correctly writes `"a\n"`, but the second save writes
`"a\n\n"`: two newline bytes after the row's characters. -/
theorem second_save_duplicates_newlines :
    sampleNamed.save [] = some (Except.ok (savedOnce, [97, 10])) ∧
    savedOnce.save [] = some (Except.ok (savedTwice, [97, 10, 10])) := by
  decide

/-- C6: claimed that under the cursor invariant (which permits the sentinel
row `y = rows.len()`, reachable via PageDown) dispatching a character-insert
or newline command never reaches an out-of-range row access.  The state
`sentinelEditor` satisfies even the strengthened invariant, PageDown from a
one-row buffer with a two-line window puts the cursor on the sentinel row,
and there both `insert_char` and `insert_newline` index `rows[rows.len()]`
— modelled as `none`, a panic. -/
theorem insert_at_sentinel_is_out_of_range :
    CursorInvStrong sentinelEditor ∧
    (pageDownEditor.process_keypress EditorKey.PageDown []).map
        (fun r => r.editor.cursor_position.y) = some 1 ∧
    pageDownEditor.rows.length = 1 ∧
    sentinelEditor.insert_char 98 = none ∧
    sentinelEditor.insert_newline = none := by
  decide

/-- C7: claimed that starting with no file argument yields a buffer with
exactly one empty row.  `main` constructs the editor and, with fewer than two
CLI arguments, enters the loop without ever calling `open_empty`, so the
buffer starts with zero rows — while the unused `open_empty` would indeed
have produced the single empty row. -/
theorem startup_without_file_has_no_rows :
    mainStartup ⟨80, 24⟩ ["kilo"] (fun _ => none) = some (Editor.new ⟨80, 24⟩) ∧
    (Editor.new ⟨80, 24⟩).rows.length = 0 ∧
    ((Editor.new ⟨80, 24⟩).open_empty).map (fun e => e.rows) =
      some [EditorRow.mk [] []] := by
  decide

/-- C8: claimed that with `cursor.y < rows.len()` the End command sets
`cursor.x` to the current row's character count.  The code's condition is
inverted (`==` instead of `<`): on the buffer `["ab"]` with the cursor at
`(0, 0)` the End command is a no-op (`x` stays 0 instead of becoming 2), and
on the sentinel row, where the condition does hold, it indexes
`rows[rows.len()]` — modelled as `none`, a panic. -/
theorem end_key_noop_below_sentinel :
    (abEditor.process_keypress EditorKey.End []).map
        (fun r => (r.editor.cursor_position.x, r.editor.cursor_position.y)) =
      some (0, 0) ∧
    rowLen abEditor 0 = 2 ∧
    sentinelEditor.process_keypress EditorKey.End [] = none := by
  decide

/-- C3 counterexample: the invariant exactly as stated (which leaves
`cursor.x` unconstrained on the sentinel row `y = rows.len()`) is not
preserved by `move_cursor`: from `rows = ["a"]`, cursor `(2, 1)` — a state
satisfying the stated invariant — ArrowUp yields cursor `(2, 0)`, where
`x = 2` exceeds the length 1 of row 0. -/
theorem move_cursor_breaks_stated_invariant :
    CursorInv c3Editor ∧
    c3Editor.move_cursor EditorKey.ArrowUp = some c3EditorAfter ∧
    ¬ CursorInv c3EditorAfter := by
  decide

/-- Under the cursor bound `y ≤ rows.len()`, the limit computation at the head
of `move_cursor` succeeds and yields limits as in the source. -/
theorem move_limits_eq_of_inv (e : Editor)
    (h1 : e.cursor_position.y ≤ e.rows.length) :
    e.move_limits =
      some (if e.cursor_position.y = e.rows.length then 0
            else rowLen e e.cursor_position.y,
            e.rows.length - 1) := by
  unfold Editor.move_limits
  by_cases h0 : e.rows.length = 0
  · have hy : e.cursor_position.y = e.rows.length := by omega
    simp [h0, hy]
  · by_cases hsent : e.cursor_position.y = e.rows.length
    · simp [h0, hsent]
    · have hlt : e.cursor_position.y < e.rows.length := by omega
      simp [h0, hsent, hlt]

/-- Updating only the cursor leaves the rows untouched, so the strengthened
invariant of the updated state is the corresponding arithmetic statement
about the new coordinates over the old rows. -/
theorem cursorInvStrong_cursor_update (e : Editor) (p : Position) :
    CursorInvStrong { e with cursor_position := p } ↔
      ((p.y ≤ e.rows.length ∧
        (0 < e.rows.length → p.y < e.rows.length → p.x ≤ rowLen e p.y)) ∧
       (p.y = e.rows.length → p.x = 0)) := Iff.rfl

/-- C3 (amended): for every state satisfying the cursor invariant strengthened
with the sentinel clause of §8 (`cursor.x = 0` whenever
`cursor.y = rows.len()`), and every command, `move_cursor` succeeds (no
out-of-range access, no underflow) and the strengthened invariant still holds. -/
theorem move_cursor_preserves_strong_invariant (e : Editor) (k : EditorKey)
    (h : CursorInvStrong e) :
    ∃ e2, e.move_cursor k = some e2 ∧ CursorInvStrong e2 := by
  obtain ⟨⟨h1, h2⟩, h3⟩ := h
  have hl := move_limits_eq_of_inv e h1
  cases k with
  | ArrowLeft =>
    simp only [Editor.move_cursor, hl]
    split_ifs <;>
      first
        | exact ⟨e, rfl, ⟨⟨h1, h2⟩, h3⟩⟩
        | exact ⟨_, rfl, by
            rw [cursorInvStrong_cursor_update]
            simp only [Position.sub, Nat.sub_zero]
            omega⟩
        | (exfalso; omega)
  | ArrowRight =>
    simp only [Editor.move_cursor, hl]
    split_ifs <;>
      first
        | exact ⟨e, rfl, ⟨⟨h1, h2⟩, h3⟩⟩
        | exact ⟨_, rfl, by
            rw [cursorInvStrong_cursor_update]
            simp only [Position.sub, Nat.sub_zero]
            omega⟩
        | (exfalso; omega)
  | ArrowUp =>
    simp only [Editor.move_cursor, hl]
    split_ifs <;>
      first
        | exact ⟨e, rfl, ⟨⟨h1, h2⟩, h3⟩⟩
        | exact ⟨_, rfl, by
            rw [cursorInvStrong_cursor_update]
            simp only [Position.sub, Nat.sub_zero]
            omega⟩
        | (exfalso; omega)
  | ArrowDown =>
    simp only [Editor.move_cursor, hl]
    split_ifs <;>
      first
        | exact ⟨e, rfl, ⟨⟨h1, h2⟩, h3⟩⟩
        | exact ⟨_, rfl, by
            rw [cursorInvStrong_cursor_update]
            simp only [Position.sub, Nat.sub_zero]
            omega⟩
        | (exfalso; omega)
  | Enter => exact ⟨e, by simp [Editor.move_cursor, hl], ⟨⟨h1, h2⟩, h3⟩⟩
  | Char c => exact ⟨e, by simp [Editor.move_cursor, hl], ⟨⟨h1, h2⟩, h3⟩⟩
  | BackSpace => exact ⟨e, by simp [Editor.move_cursor, hl], ⟨⟨h1, h2⟩, h3⟩⟩
  | PageUp => exact ⟨e, by simp [Editor.move_cursor, hl], ⟨⟨h1, h2⟩, h3⟩⟩
  | PageDown => exact ⟨e, by simp [Editor.move_cursor, hl], ⟨⟨h1, h2⟩, h3⟩⟩
  | End => exact ⟨e, by simp [Editor.move_cursor, hl], ⟨⟨h1, h2⟩, h3⟩⟩
  | Ctrl c => exact ⟨e, by simp [Editor.move_cursor, hl], ⟨⟨h1, h2⟩, h3⟩⟩
  | Null => exact ⟨e, by simp [Editor.move_cursor, hl], ⟨⟨h1, h2⟩, h3⟩⟩

/-- Witness for the amended C3 theorem at a concrete state and command. -/
theorem move_cursor_preserves_strong_invariant_witness :
    ∃ e2, oneRowEditor.move_cursor EditorKey.ArrowRight = some e2 ∧
      CursorInvStrong e2 :=
  move_cursor_preserves_strong_invariant oneRowEditor EditorKey.ArrowRight
    (by decide)

/-- Every non-Null command that `process_keypress` completes is recorded as the
last entry of the key history. -/
theorem process_keypress_records_key (e : Editor) (k : EditorKey)
    (pi : List UInt8) (r : KeypressResult) (hk : k ≠ EditorKey.Null)
    (h : e.process_keypress k pi = some r) :
    r.editor.e_key_history.getLast? = some k := by
  cases k <;>
    first
      | exact absurd rfl hk
      | (simp only [Editor.process_keypress] at h
         obtain ⟨a, ha, rfl⟩ := Option.map_eq_some'.mp h
         exact List.getLast?_concat _)

/-- On a dirty buffer, the quit command allows exit exactly when the last
recorded command was also the quit command, and otherwise sets the warning;
either way the quit command itself is then recorded. -/
theorem process_keypress_ctrlQ_dirty (e : Editor) (h : e.is_dirty = true) :
    e.process_keypress (EditorKey.Ctrl 81) [] =
      some (if e.e_key_history.getLast? = some (EditorKey.Ctrl 81) then
              ⟨{ e with e_key_history := e.e_key_history ++ [EditorKey.Ctrl 81] },
               true, none⟩
            else
              ⟨{ e with
                   status_message := quitWarning
                   e_key_history := e.e_key_history ++ [EditorKey.Ctrl 81] },
               false, none⟩) := by
  by_cases hlast : e.e_key_history.getLast? = some (EditorKey.Ctrl 81) <;>
    simp [Editor.process_keypress, Editor.keypress_action, h, hlast]

/-- C5: with unsaved changes, the quit command is honored (allow_exit = true)
iff the immediately preceding recorded command was also the quit command; a
first quit leaves the editor open and sets the warning status message; and any
other (recorded, non-Null) command becomes the last history entry, so a quit
immediately after it is not honored. -/
theorem quit_honored_iff_double (e : Editor) (h : e.is_dirty = true) :
    (∃ r, e.process_keypress (EditorKey.Ctrl 81) [] = some r ∧
      (r.allow_exit = true ↔
        e.e_key_history.getLast? = some (EditorKey.Ctrl 81)) ∧
      (e.e_key_history.getLast? ≠ some (EditorKey.Ctrl 81) →
        r.allow_exit = false ∧ r.editor.status_message = quitWarning)) ∧
    (∀ k pi r, k ≠ EditorKey.Ctrl 81 → k ≠ EditorKey.Null →
      e.process_keypress k pi = some r →
      r.editor.e_key_history.getLast? = some k ∧
      (r.editor.is_dirty = true → ∀ r2,
        r.editor.process_keypress (EditorKey.Ctrl 81) [] = some r2 →
        r2.allow_exit = false)) := by
  constructor
  · rw [process_keypress_ctrlQ_dirty e h]
    by_cases hlast : e.e_key_history.getLast? = some (EditorKey.Ctrl 81)
    · rw [if_pos hlast]
      exact ⟨_, rfl, by simp [hlast], fun hne => absurd hlast hne⟩
    · rw [if_neg hlast]
      exact ⟨_, rfl, by simp [hlast], fun _ => ⟨rfl, rfl⟩⟩
  · intro k pi r hkq hkn hr
    have hlast := process_keypress_records_key e k pi r hkn hr
    refine ⟨hlast, fun hdirty r2 hr2 => ?_⟩
    have hne : r.editor.e_key_history.getLast? ≠ some (EditorKey.Ctrl 81) := by
      rw [hlast]
      intro hc
      exact hkq (Option.some.inj hc)
    rw [process_keypress_ctrlQ_dirty r.editor hdirty, if_neg hne] at hr2
    injection hr2 with h2
    rw [← h2]

/-- Witness for C5 at a concrete dirty buffer. -/
theorem quit_honored_iff_double_witness :
    (∃ r, dirtyUnnamed.process_keypress (EditorKey.Ctrl 81) [] = some r ∧
      (r.allow_exit = true ↔
        dirtyUnnamed.e_key_history.getLast? = some (EditorKey.Ctrl 81)) ∧
      (dirtyUnnamed.e_key_history.getLast? ≠ some (EditorKey.Ctrl 81) →
        r.allow_exit = false ∧ r.editor.status_message = quitWarning)) ∧
    (∀ k pi r, k ≠ EditorKey.Ctrl 81 → k ≠ EditorKey.Null →
      dirtyUnnamed.process_keypress k pi = some r →
      r.editor.e_key_history.getLast? = some k ∧
      (r.editor.is_dirty = true → ∀ r2,
        r.editor.process_keypress (EditorKey.Ctrl 81) [] = some r2 →
        r2.allow_exit = false)) :=
  quit_honored_iff_double dirtyUnnamed rfl

/-- C9: after `scroll` runs, the cursor's render-space x lies within
`[offset.x, offset.x + window.x)` and the cursor row within
`[offset.y, offset.y + window.y)` — for every state (hence for every state
reachable by any sequence of moves, including the degenerate empty-buffer
case), whenever the content window has positive extent; all subtractions
involved are guarded, so no underflow occurs. -/
theorem scroll_keeps_cursor_visible (e : Editor)
    (hx : 0 < e.window_size.x) (hy : 0 < e.window_size.y) :
    e.scroll.offset.x ≤ e.scroll.render_cursor_position.x ∧
    e.scroll.render_cursor_position.x <
      e.scroll.offset.x + e.scroll.window_size.x ∧
    e.scroll.offset.y ≤ e.scroll.cursor_position.y ∧
    e.scroll.cursor_position.y <
      e.scroll.offset.y + e.scroll.window_size.y := by
  unfold Editor.scroll
  dsimp only
  split_ifs <;> omega

/-- Witness for C9 at a concrete state. -/
theorem scroll_keeps_cursor_visible_witness :
    baseEditor.scroll.offset.x ≤ baseEditor.scroll.render_cursor_position.x ∧
    baseEditor.scroll.render_cursor_position.x <
      baseEditor.scroll.offset.x + baseEditor.scroll.window_size.x ∧
    baseEditor.scroll.offset.y ≤ baseEditor.scroll.cursor_position.y ∧
    baseEditor.scroll.cursor_position.y <
      baseEditor.scroll.offset.y + baseEditor.scroll.window_size.y :=
  scroll_keeps_cursor_visible baseEditor (by decide) (by decide)

/-- C10: cancelling the save-as prompt (Escape) makes `save` fail with the
"user canceled" error before anything is written; dispatching Ctrl-S then
records no file write, leaves the rows and the dirty flag unchanged, keeps
the editor open (allow_exit = false), and surfaces the failure only as the
status-line message. -/
theorem canceled_save_changes_nothing (e : Editor) (pi : List UInt8)
    (hname : e.current_file_name = "[NO NAME]")
    (hdirty : e.is_dirty = true)
    (hcancel : save_prompt pi = some none) :
    e.save pi = some (Except.error "user canceled") ∧
    ∀ r, e.process_keypress (EditorKey.Ctrl 83) pi = some r →
      r.written = none ∧ r.editor.rows = e.rows ∧ r.editor.is_dirty = true ∧
      r.allow_exit = false ∧ r.editor.status_message = "user canceled" := by
  have hsave : e.save pi = some (Except.error "user canceled") := by
    unfold Editor.save
    rw [if_pos hname, hcancel]
  refine ⟨hsave, fun r hr => ?_⟩
  simp only [Editor.process_keypress, Editor.keypress_action, hsave] at hr
  rw [if_neg (by decide), if_pos (by decide)] at hr
  simp only [Option.map_some', Option.some.injEq] at hr
  subst hr
  exact ⟨rfl, rfl, hdirty, rfl, rfl⟩

/-- Witness for C10 at a concrete dirty unnamed buffer with Escape typed. -/
theorem canceled_save_changes_nothing_witness :
    dirtyUnnamed.save [27] = some (Except.error "user canceled") ∧
    ∀ r, dirtyUnnamed.process_keypress (EditorKey.Ctrl 83) [27] = some r →
      r.written = none ∧ r.editor.rows = dirtyUnnamed.rows ∧
      r.editor.is_dirty = true ∧ r.allow_exit = false ∧
      r.editor.status_message = "user canceled" :=
  canceled_save_changes_nothing dirtyUnnamed [27] rfl rfl (by decide)
